import Mathlib

set_option maxHeartbeats 1000000
set_option maxRecDepth 100000

/-!
Verification development for the Tawk.to / Confluence / Gemini chatbot
(`src/app.py`).  The Python functions are shallowly embedded as executable
Lean definitions: strings are lists of characters (`String` in Lean is a
packed `List Char`, matching Python's sequence-of-code-points view),
outbound HTTP traffic is modelled by explicit response environments, and
every `try/except` block becomes an explicit sum of outcomes.
-/

/-! ## Whitespace utilities (Python `re.sub(r"\s+", " ", ...)` and `.strip()`) -/

/-- The characters matched by Python's `\s` on ASCII text: space, tab,
newline, carriage return, vertical tab, form feed. -/
def isPySpace (c : Char) : Bool :=
  c == ' ' || c == '\t' || c == '\n' || c == '\r' || c == '\x0b' || c == '\x0c'

/-- `re.sub(r"\s+", " ", text)`: every maximal run of whitespace characters
is replaced by a single space. -/
def collapseWs : List Char → List Char
  | [] => []
  | [c] => if isPySpace c then [' '] else [c]
  | c :: d :: rest =>
    if isPySpace c then
      if isPySpace d then collapseWs (d :: rest)
      else ' ' :: collapseWs (d :: rest)
    else c :: collapseWs (d :: rest)

/-- Python `str.strip()` on a list of characters: drop leading and trailing
whitespace. -/
def pyStripList (cs : List Char) : List Char :=
  ((cs.dropWhile isPySpace).reverse.dropWhile isPySpace).reverse

/-- Python `str.strip()`. -/
def pyStrip (s : String) : String := String.mk (pyStripList s.toList)

/-! ## Python `str.replace` (used for the six HTML entities) -/

/-- Fuel-driven left-to-right, non-overlapping replacement of `pat` by `rep`.
The fuel is consumed one unit per step; calling it with `s.length` fuel (as
`replaceAll` does) is always enough, so the `0` case is never reached for
nonempty input. -/
def replaceAllFuel (pat rep : List Char) : Nat → List Char → List Char
  | _, [] => []
  | 0, s => s
  | fuel + 1, c :: rest =>
    if !pat.isEmpty && pat.isPrefixOf (c :: rest) then
      rep ++ replaceAllFuel pat rep fuel ((c :: rest).drop pat.length)
    else c :: replaceAllFuel pat rep fuel rest

/-- Python `s.replace(pat, rep)` (for nonempty `pat`): replace every
occurrence, scanning left to right without overlap. -/
def replaceAll (pat rep s : List Char) : List Char :=
  replaceAllFuel pat rep s.length s

/-! ## `re.sub('<[^<]+?>', '', ...)` — tag removal

The regex matches an `'<'`, then a minimal nonempty run of non-`'<'`
characters, then `'>'`.  `re.sub` scans left to right and never rescans
emitted text.  `removeTagsGo buf cs` processes `cs` with `buf` holding (in
reverse) the characters of a candidate tag currently being matched
(`buf = []` means "not inside a candidate"). -/
def removeTagsGo : List Char → List Char → List Char
  | buf, [] => buf.reverse
  | buf, c :: rest =>
    if buf.isEmpty then
      if c = '<' then removeTagsGo [c] rest
      else c :: removeTagsGo [] rest
    else
      if c = '>' ∧ 2 ≤ buf.length then removeTagsGo [] rest
      else if c = '<' then buf.reverse ++ removeTagsGo [c] rest
      else removeTagsGo (c :: buf) rest

/-- `re.sub('<[^<]+?>', '', s)` on a list of characters. -/
def removeTags (cs : List Char) : List Char := removeTagsGo [] cs

/-! ## `TawkConfluenceBot.extract_clean_text` (src/app.py lines 108–124) -/

/-- The six entity replacements of lines 117–119, in the source's literal
order: nbsp, amp, lt, gt, quot, #39. -/
def decodeEntities (t0 : List Char) : List Char :=
  let t1 := replaceAll "&nbsp;".toList " ".toList t0
  let t2 := replaceAll "&amp;".toList "&".toList t1
  let t3 := replaceAll "&lt;".toList "<".toList t2
  let t4 := replaceAll "&gt;".toList ">".toList t3
  let t5 := replaceAll "&quot;".toList "\"".toList t4
  replaceAll "&#39;".toList "\x27".toList t5

/-- `TawkConfluenceBot.extract_clean_text`: empty (falsy) input yields `""`;
otherwise remove tag-like spans, decode the six entities, collapse
whitespace runs to single spaces and strip the ends. -/
def extract_clean_text (html_content : String) : String :=
  if html_content = "" then ""
  else String.mk (pyStripList (collapseWs (decodeEntities (removeTags html_content.toList))))

/-! ## `TawkConfluenceBot.search_confluence` (src/app.py lines 66–106)

A raw search hit is modelled by the fields the code reads: `title`
(`result.get('title', 'Untitled')`), the nested `content.id`
(`result.get('content', {}).get('id')`, absent anywhere ↦ `none`), and the
nested `content.body.storage.value`
(`storage.get('value', '')`, absent anywhere ↦ `none`, defaulted to `""`). -/
structure RawHit where
  title : Option String
  contentId : Option String
  bodyHtml : Option String
deriving DecidableEq, Repr

/-- The outcome of one `self.confluence_session.get(...)` call for a CQL
strategy: either an exception is raised (connection error, or a JSON parse
error on a 200 response), or an HTTP response with a status code and the
parsed `results` list arrives. -/
inductive StratResp where
  | exn : StratResp
  | resp (status : Nat) (hits : List RawHit) : StratResp
deriving DecidableEq, Repr

/-- The three CQL strategies of lines 69–73, built from the raw query. -/
def search_strategies (query : String) : List String :=
  ["text ~ \"" ++ query ++ "\"", "text ~ " ++ query, "title ~ \"" ++ query ++ "\""]

/-- The strategy loop of lines 77–90 run inside the `try`: strategies are
issued in order; a 200 response contributes its hits, any other status
contributes nothing, and a raised exception aborts the whole loop (`none`),
discarding hits already collected. -/
def collectAll : List StratResp → Option (List RawHit)
  | [] => some []
  | .exn :: _ => none
  | .resp status hits :: rest =>
    (collectAll rest).map (fun tail => (if status = 200 then hits else []) ++ tail)

/-- The deduplication loop of lines 93–100: a hit is kept iff its
`content.id` is present, truthy (nonempty) and not seen before. -/
def dedupLoop (seen : List String) : List RawHit → List RawHit
  | [] => []
  | r :: rest =>
    match r.contentId with
    | some cid =>
      if cid != "" && !(seen.contains cid) then r :: dedupLoop (cid :: seen) rest
      else dedupLoop seen rest
    | none => dedupLoop seen rest

/-- `TawkConfluenceBot.search_confluence`, with the network abstracted as an
environment `env` mapping each CQL string to its outcome.  An exception
anywhere lands in the outer `except`, which returns `[]`. -/
def search_confluence (query : String) (env : String → StratResp) : List RawHit :=
  match collectAll ((search_strategies query).map env) with
  | none => []
  | some all_results => (dedupLoop [] all_results).take 3

/-- Spec-side deduplication "by document identifier, keeping only the first
occurrence of each identifier": a seen-set walk keyed on the raw
(optional) identifier, with none of the implementation's truthiness
handling. -/
def dedupByIdSpec (ids : List (Option String)) : List RawHit → List RawHit
  | [] => []
  | r :: rest =>
    if ids.contains r.contentId then dedupByIdSpec ids rest
    else r :: dedupByIdSpec (r.contentId :: ids) rest

/-- Whether a raw hit carries a present, truthy (nonempty) `content.id`. -/
def hasId (r : RawHit) : Bool :=
  match r.contentId with
  | some cid => cid != ""
  | none => false

/-- Whether a strategy outcome is a raised exception. -/
def isExn : StratResp → Bool
  | .exn => true
  | .resp _ _ => false

/-- The hits a single strategy outcome contributes when no exception aborts
the loop: its parsed hits on HTTP 200, nothing otherwise. -/
def okHits : StratResp → List RawHit
  | .exn => []
  | .resp status hits => if status = 200 then hits else []

/-! ## `TawkConfluenceBot.generate_response` (lines 126–177) and
`TawkConfluenceBot.format_basic_response` (lines 179–201) -/

/-- The outcome of `gemini_client.models.generate_content`: a raised
exception, or a response whose `.text` is the given string (a falsy/absent
`.text`, or a falsy response object, is modelled as `""`, which the code
treats identically). -/
inductive AIResult where
  | exn : AIResult
  | ok (text : String) : AIResult
deriving DecidableEq, Repr

/-- Line 147: context previews are cut to 600 characters with `"..."`
appended when the clean text is longer. -/
def truncate600 (clean : String) : String :=
  if clean.length > 600 then String.mk (clean.toList.take 600) ++ "..." else clean

/-- Lines 138–148: the context block contribution of one search hit
(skipped when its clean text is empty). -/
def contextPart (r : RawHit) : Option String :=
  let clean := extract_clean_text (r.bodyHtml.getD "")
  if clean = "" then none
  else some ("**" ++ r.title.getD "Untitled" ++ "**\n" ++ truncate600 clean)

/-- Lines 135–150: the context built from the top 2 results. -/
def buildContext (results : List RawHit) : String :=
  String.intercalate "\n\n" ((results.take 2).filterMap contextPart)

/-- The prompt f-string of lines 153–162. -/
def buildPrompt (query context : String) : String :=
  "You are a helpful AI assistant answering questions based on documentation.\n\nUser\x27s question: \"" ++ query ++ "\"\n\nRelevant information from the knowledge base:\n" ++ context ++ "\n\nPlease provide a clear, helpful response based on this information. Be conversational and friendly, like a knowledgeable colleague helping out. If the information doesn\x27t fully answer the question, say so and suggest what additional information might be needed.\n\nKeep your response concise but informative."

/-- The fixed apology of line 129. -/
def apologyMessage : String :=
  "I couldn\x27t find information about that topic in the knowledge base. Could you try rephrasing your question?"

/-- Line 194: fallback previews are cut to 200 characters with `"..."`
appended when the clean text is longer. -/
def preview200 (clean : String) : String :=
  if clean.length > 200 then String.mk (clean.toList.take 200) ++ "..." else clean

/-- Lines 186–199: the `response_parts` entries appended for the result at
(1-based) position `i`. -/
def entryParts (i : Nat) (r : RawHit) : List String :=
  let clean := extract_clean_text (r.bodyHtml.getD "")
  let preview := preview200 clean
  [toString i ++ ". **" ++ r.title.getD "Untitled" ++ "**"]
    ++ (if preview != "" then ["   " ++ preview] else [])
    ++ [""]

/-- The `enumerate(confluence_results, 1)` loop of lines 186–199. -/
def entriesFrom (i : Nat) : List RawHit → List String
  | [] => []
  | r :: rest => entryParts i r ++ entriesFrom (i + 1) rest

/-- `TawkConfluenceBot.format_basic_response`. -/
def format_basic_response (query : String) (confluence_results : List RawHit) : String :=
  if confluence_results = [] then
    "I couldn\x27t find information about \x27" ++ query ++ "\x27 in the knowledge base."
  else
    String.intercalate "\n"
      (("I found " ++ toString confluence_results.length ++ " result(s) about \x27" ++ query ++ "\x27:\n")
        :: entriesFrom 1 confluence_results)

/-- `TawkConfluenceBot.generate_response`, with the AI backend abstracted as
`ai`: `none` when `gemini_client` is unset, otherwise a function from the
prompt to the call's outcome.  Empty results short-circuit to the apology;
an exception or falsy text falls through to `format_basic_response`. -/
def generate_response (ai : Option (String → AIResult)) (query : String)
    (confluence_results : List RawHit) : String :=
  if confluence_results = [] then apologyMessage
  else
    match ai with
    | some backend =>
      match backend (buildPrompt query (buildContext confluence_results)) with
      | .ok t => if t != "" then t else format_basic_response query confluence_results
      | .exn => format_basic_response query confluence_results
    | none => format_basic_response query confluence_results

/-! ## `TawkConfluenceBot.send_tawk_message` (lines 203–233) -/

/-- The Tawk.to credentials read from the environment. -/
structure TawkConfig where
  tawk_api_key : Option String
  tawk_property_id : Option String
deriving DecidableEq, Repr

/-- One `requests.post` to the per-chat message endpoint, with the data the
code puts in it. -/
structure PostCall where
  chat_id : String
  message : String
deriving DecidableEq, Repr

/-- The outcome of a `requests.post`: a transport exception or an HTTP
status code. -/
inductive PostResult where
  | exn : PostResult
  | status (code : Nat) : PostResult
deriving DecidableEq, Repr

/-- Line 205's truthiness test: both credentials present and nonempty. -/
def tawkConfigured (cfg : TawkConfig) : Bool :=
  !(cfg.tawk_api_key.getD "" == "") && !(cfg.tawk_property_id.getD "" == "")

/-- `TawkConfluenceBot.send_tawk_message`, with the network abstracted as
`net`.  Returns the boolean result together with the list of POST calls
actually issued (so that "no network call" and "exactly one POST" are
statable). -/
def send_tawk_message (cfg : TawkConfig) (net : PostCall → PostResult)
    (chat_id message : String) : Bool × List PostCall :=
  if !(tawkConfigured cfg) then (false, [])
  else
    let call : PostCall := ⟨chat_id, message⟩
    match net call with
    | .exn => (false, [call])
    | .status code => (code = 200 ∨ code = 201, [call])

/-! ## The webhook dispatcher `tawk_webhook` (lines 249–341) -/

/-- The `message` object of a `chat:start` payload (`data.get('message', {})`). -/
structure MsgData where
  text : Option String
deriving DecidableEq, Repr

/-- One transcript message: `sender.t` and `msg`. -/
structure TranscriptMsg where
  sender_t : Option String
  msg : Option String
deriving DecidableEq, Repr

/-- The `chat` object of a `chat:transcript_created` payload. -/
structure ChatData where
  id : Option String
  messages : List TranscriptMsg
deriving DecidableEq, Repr

/-- The parsed webhook JSON body, restricted to the fields the handler
reads. -/
structure WebhookData where
  event : Option String
  chatId : Option String
  message : Option MsgData
  chat : Option ChatData
deriving DecidableEq, Repr

/-- The observable actions the dispatcher takes: running the Confluence
search pipeline on a query, and invoking `send_tawk_message` on a chat id
(`none` when `chatId` is absent) with a message. -/
inductive BotAction where
  | searched (query : String) : BotAction
  | notified (chat_id : Option String) (message : String) : BotAction
deriving DecidableEq, Repr

/-- The collaborators the dispatcher drives: the Confluence search
environment and the optional AI backend (the Tawk POST outcome does not
affect which actions are taken, so it is not part of the trace model). -/
structure Env where
  searchEnv : String → StratResp
  ai : Option (String → AIResult)

/-- The fixed welcome message of line 290. -/
def welcomeMessage : String :=
  "Hi! I\x27m your AI assistant. I can help you find information from our knowledge base. Ask me anything!"

/-- The `message.text` extraction of lines 271–272 before stripping:
`data.get('message', {}).get('text', '')`. -/
def rawMessageText (d : WebhookData) : String :=
  match d.message with
  | none => ""
  | some m => m.text.getD ""

/-- Lines 302–310: scan the (already reversed) transcript messages for the
first entry whose `sender.t` is `"v"` and return its stripped `msg`. -/
def findLastVisitor : List TranscriptMsg → Option String
  | [] => none
  | m :: rest =>
    if m.sender_t.getD "" = "v" then some (pyStrip (m.msg.getD ""))
    else findLastVisitor rest

/-- The webhook dispatcher `tawk_webhook`, as the trace of searches and
notifier invocations it performs on one event (logging, HTTP status codes
and the notifier's boolean result are omitted from the trace). -/
def tawk_webhook (env : Env) (d : WebhookData) : List BotAction :=
  if d.event = some "chat:start" then
    let message_text := pyStrip (rawMessageText d)
    if message_text != "" then
      let confluence_results := search_confluence message_text env.searchEnv
      let response := generate_response env.ai message_text confluence_results
      [.searched message_text, .notified d.chatId response]
    else
      [.notified d.chatId welcomeMessage]
  else if d.event = some "chat:transcript_created" then
    let chat_data := d.chat.getD ⟨none, []⟩
    match findLastVisitor chat_data.messages.reverse with
    | some last_visitor_message =>
      if last_visitor_message != "" then
        let confluence_results := search_confluence last_visitor_message env.searchEnv
        let response := generate_response env.ai last_visitor_message confluence_results
        [.searched last_visitor_message, .notified chat_data.id response]
      else []
    | none => []
  else []

/-! ## Concrete instances used for witnesses and counterexamples -/

/-- A well-formed raw hit with identifier `i`. -/
def mkHit (i : String) : RawHit :=
  ⟨some ("Title " ++ i), some i, some ("Body " ++ i)⟩

/-- A raw hit whose `content` carries no `id`. -/
def noIdHit : RawHit := ⟨some "NoId", none, some "orphan body"⟩

/-- All three strategies succeed; across them the hits carry the ids
`["1","2","1","3","2"]` in issuance order. -/
def envDedup : String → StratResp := fun cql =>
  if cql = "text ~ \"q\"" then .resp 200 [mkHit "1", mkHit "2"]
  else if cql = "text ~ q" then .resp 200 [mkHit "1", mkHit "3"]
  else .resp 200 [mkHit "2"]

/-- Strategy 1 succeeds with a hit, strategy 2 raises a transport
exception, strategy 3 would succeed with another hit. -/
def envMidExn : String → StratResp := fun cql =>
  if cql = "text ~ \"q\"" then .resp 200 [mkHit "1"]
  else if cql = "text ~ q" then .exn
  else .resp 200 [mkHit "2"]

/-- Strategy 1 returns an id-less hit next to a well-formed one; the other
strategies return nothing. -/
def envNoId : String → StratResp := fun cql =>
  if cql = "text ~ \"q\"" then .resp 200 [noIdHit, mkHit "7"]
  else .resp 200 []

/-- An AI backend whose call always raises. -/
def backendExn : String → AIResult := fun _ => .exn

/-- An AI backend whose call always returns empty text. -/
def backendEmptyText : String → AIResult := fun _ => .ok ""

/-- A hit whose body is 250 `'b'` characters of clean text. -/
def hit250 : RawHit := ⟨some "Long", some "9", some (String.mk (List.replicate 250 'b'))⟩

/-- A hit whose body is 150 `'c'` characters of clean text. -/
def hit150 : RawHit := ⟨some "Short", some "8", some (String.mk (List.replicate 150 'c'))⟩

/-- Unconfigured Tawk credentials (API key absent). -/
def cfgMissingKey : TawkConfig := ⟨none, some "prop"⟩

/-- Fully configured Tawk credentials. -/
def cfgFull : TawkConfig := ⟨some "key", some "prop"⟩

/-- A POST environment that always answers HTTP 200. -/
def net200 : PostCall → PostResult := fun _ => .status 200

/-- A dispatcher environment where every search strategy answers 200 with
no hits and no AI backend is configured. -/
def envTriv : Env := ⟨fun _ => .resp 200 [], none⟩

/-- A `chat:start` payload whose message text is the single space `" "`. -/
def dataWsText : WebhookData := ⟨some "chat:start", some "abc", some ⟨some " "⟩, none⟩

/-- A `chat:start` payload whose message text is empty. -/
def dataEmptyText : WebhookData := ⟨some "chat:start", some "abc", some ⟨some ""⟩, none⟩

/-- A `chat:start` payload whose message text is `"hi"`. -/
def dataHiText : WebhookData := ⟨some "chat:start", some "abc", some ⟨some "hi"⟩, none⟩

/-! # Theorems -/

/-! ## Search client: C1, C2, C9 -/

theorem collectAll_eq (rs : List StratResp) :
    collectAll rs = if rs.any isExn then none else some ((rs.map okHits).flatten) := by
  induction rs with
  | nil => rfl
  | cons r rest ih =>
    cases r with
    | exn => simp [collectAll, isExn]
    | resp status hits =>
      rw [collectAll, ih]
      by_cases h : rest.any isExn = true
      · simp [h, isExn]
      · simp [h, isExn, okHits]

theorem dedupLoop_eq_dedupByIdSpec (l : List RawHit) :
    ∀ (seen : List String) (ids : List (Option String)),
      (∀ r ∈ l, hasId r = true) →
      (∀ c : String, seen.contains c = ids.contains (some c)) →
      dedupLoop seen l = dedupByIdSpec ids l := by
  induction l with
  | nil => intro seen ids _ _; rfl
  | cons r rest ih =>
    intro seen ids hl hcorr
    have hr : hasId r = true := hl r (List.mem_cons_self r rest)
    obtain ⟨cid, hcid⟩ : ∃ cid, r.contentId = some cid := by
      cases h : r.contentId with
      | none => simp [hasId, h] at hr
      | some c => exact ⟨c, rfl⟩
    have hcne : (cid != "") = true := by simpa [hasId, hcid] using hr
    have hrest : ∀ x ∈ rest, hasId x = true := fun x hx => hl x (List.mem_cons_of_mem r hx)
    simp only [dedupLoop, dedupByIdSpec, hcid, hcne, Bool.true_and, hcorr cid]
    by_cases hids : ids.contains (some cid) = true
    · simp only [hids, Bool.not_true, Bool.false_eq_true, if_false, if_true]
      exact ih seen ids hrest hcorr
    · have hids' : ids.contains (some cid) = false := eq_false_of_ne_true hids
      simp only [hids', Bool.not_false, if_true, Bool.false_eq_true, if_false]
      have hnext : dedupLoop (cid :: seen) rest = dedupByIdSpec (some cid :: ids) rest := by
        refine ih (cid :: seen) (some cid :: ids) hrest (fun c => ?_)
        have h := hcorr c
        simp only [List.contains_cons] at h ⊢
        simp at h ⊢
        rw [decide_eq_decide.mpr h]
      rw [hnext]

/-- Claim C1: when each of the three query strategies answers HTTP 200 and
every returned hit carries a document identifier, the search result is the
three strategies' hit lists concatenated in issuance order, deduplicated by
document identifier keeping only the first occurrence of each identifier,
and truncated to the first 3 entries. -/
theorem claim_C1 (query : String) (env : String → StratResp) (h1 h2 h3 : List RawHit)
    (he : (search_strategies query).map env = [.resp 200 h1, .resp 200 h2, .resp 200 h3])
    (hid : ∀ r ∈ h1 ++ h2 ++ h3, hasId r = true) :
    search_confluence query env = (dedupByIdSpec [] (h1 ++ h2 ++ h3)).take 3 := by
  rw [search_confluence, he]
  have hc : collectAll [.resp 200 h1, .resp 200 h2, .resp 200 h3]
      = some (h1 ++ h2 ++ h3) := by
    simp [collectAll, List.append_assoc]
  rw [hc]
  exact congrArg (List.take 3) (dedupLoop_eq_dedupByIdSpec (h1 ++ h2 ++ h3) [] [] hid (fun _ => rfl))

/-- Witness for C1: hits with ids `["1","2","1","3","2"]` across the three
strategies yield exactly the hits with ids `["1","2","3"]`, in that order. -/
theorem claim_C1_witness :
    search_confluence "q" envDedup = [mkHit "1", mkHit "2", mkHit "3"]
    ∧ (search_confluence "q" envDedup).map RawHit.contentId = [some "1", some "2", some "3"] := by
  have h := claim_C1 "q" envDedup [mkHit "1", mkHit "2"] [mkHit "1", mkHit "3"] [mkHit "2"]
    (by decide) (by decide)
  refine ⟨?_, ?_⟩ <;> rw [h] <;> decide

/-- Counterexample to claim C2: strategy 1 succeeds with a hit and only
strategy 2 raises, yet the whole search returns `[]` — the successful
strategy's hits are not returned, and the empty list arises without a total
failure of all strategies. -/
theorem claim_C2_counterexample :
    envMidExn ("text ~ \"" ++ "q" ++ "\"") = .resp 200 [mkHit "1"]
    ∧ envMidExn ("text ~ " ++ "q") = .exn
    ∧ envMidExn ("title ~ \"" ++ "q" ++ "\"") = .resp 200 [mkHit "2"]
    ∧ search_confluence "q" envMidExn = []
    ∧ mkHit "1" ∉ search_confluence "q" envMidExn := by decide

/-- Claim C2 as amended: a non-success HTTP status on an individual strategy
is swallowed — that strategy contributes zero results while the 200
strategies' hits are still collected, deduplicated and truncated — but a
transport or parse exception raised by any strategy aborts the whole search
and yields the empty list, discarding the other strategies' hits; in every
case the caller receives a list, never an error. -/
theorem claim_C2_amended (query : String) (env : String → StratResp) :
    search_confluence query env =
      if ((search_strategies query).map env).any isExn then []
      else (dedupLoop [] (((search_strategies query).map env).map okHits).flatten).take 3 := by
  rw [search_confluence, collectAll_eq]
  by_cases h : ((search_strategies query).map env).any isExn = true
  · simp [h]
  · simp [eq_false_of_ne_true h]

/-- Claim C9: every entry of a search result carries a present, nonempty
document identifier (id-less raw hits are dropped by the deduplication
loop). -/
theorem claim_C9 (query : String) (env : String → StratResp) (r : RawHit)
    (hr : r ∈ search_confluence query env) : hasId r = true := by
  have hmem : ∀ (l : List RawHit) (seen : List String), r ∈ dedupLoop seen l → hasId r = true := by
    intro l
    induction l with
    | nil => intro seen h; cases h
    | cons x rest ih =>
      intro seen h
      cases hx : x.contentId with
      | none =>
        simp only [dedupLoop, hx] at h
        exact ih seen h
      | some cid =>
        simp only [dedupLoop, hx] at h
        by_cases hc : (cid != "" && !seen.contains cid) = true
        · rw [if_pos hc] at h
          rcases List.mem_cons.mp h with h' | h'
          · subst h'
            have hc' := hc
            simp only [Bool.and_eq_true, bne_iff_ne] at hc'
            simp [hasId, hx, hc'.1]
          · exact ih (cid :: seen) h'
        · rw [if_neg hc] at h
          exact ih seen h
  rw [search_confluence] at hr
  cases hall : collectAll ((search_strategies query).map env) with
  | none => rw [hall] at hr; cases hr
  | some all_results =>
    rw [hall] at hr
    exact hmem all_results [] (List.mem_of_mem_take hr)

/-- Witness for C9: with an id-less hit next to a well-formed one, the
id-less hit is dropped and the surviving entry has a nonempty identifier. -/
theorem claim_C9_witness : hasId (mkHit "7") = true :=
  claim_C9 "q" envNoId (mkHit "7") (by decide)

/-! ## Response generator: C3, C4, C5 -/

/-- Claim C3: with an empty results list, `generate_response` returns the
fixed apology inviting the user to rephrase, for every query and whatever
the AI backend configuration is. -/
theorem claim_C3 (ai : Option (String → AIResult)) (query : String) :
    generate_response ai query [] = apologyMessage := by
  rfl

/-- Claim C4: with nonempty results, if the AI backend call raises or
returns empty text, `generate_response` returns exactly the deterministic
fallback `format_basic_response` on the same pair, and no error reaches the
caller. -/
theorem claim_C4 (query : String) (results : List RawHit) (backend : String → AIResult)
    (hne : results ≠ [])
    (hfail : backend (buildPrompt query (buildContext results)) = .exn
      ∨ backend (buildPrompt query (buildContext results)) = .ok "") :
    generate_response (some backend) query results = format_basic_response query results := by
  rw [generate_response, if_neg hne]
  rcases hfail with h | h <;> rw [h]
  rfl

/-- Witness for C4: both failure modes (exception and empty text) at a
concrete query and result. -/
theorem claim_C4_witness :
    generate_response (some backendExn) "q" [mkHit "1"] = format_basic_response "q" [mkHit "1"]
    ∧ generate_response (some backendEmptyText) "q" [mkHit "1"]
      = format_basic_response "q" [mkHit "1"] :=
  ⟨claim_C4 "q" [mkHit "1"] backendExn (by decide) (Or.inl rfl),
   claim_C4 "q" [mkHit "1"] backendEmptyText (by decide) (Or.inr rfl)⟩

/-- Claim C5: in the fallback, the result at position `i` is rendered as a
numbered `"{i}. **{title}**"` entry followed by the preview line exactly
when the preview is nonempty; the preview is the clean body text cut to its
first 200 characters with `"..."` appended precisely when the clean text
exceeds 200 characters (hence 203 characters of preview), and is the whole
clean text otherwise. -/
theorem claim_C5 (i : Nat) (r : RawHit) :
    entryParts i r =
      (toString i ++ ". **" ++ r.title.getD "Untitled" ++ "**")
        :: ((if preview200 (extract_clean_text (r.bodyHtml.getD "")) != "" then
            ["   " ++ preview200 (extract_clean_text (r.bodyHtml.getD ""))]
          else []) ++ [""])
    ∧ (200 < (extract_clean_text (r.bodyHtml.getD "")).length →
        preview200 (extract_clean_text (r.bodyHtml.getD ""))
          = String.mk ((extract_clean_text (r.bodyHtml.getD "")).toList.take 200) ++ "..."
        ∧ (preview200 (extract_clean_text (r.bodyHtml.getD ""))).length = 203)
    ∧ ((extract_clean_text (r.bodyHtml.getD "")).length ≤ 200 →
        preview200 (extract_clean_text (r.bodyHtml.getD "")) = extract_clean_text (r.bodyHtml.getD "")) := by
  refine ⟨rfl, fun h => ⟨?_, ?_⟩, fun h => ?_⟩
  · rw [preview200, if_pos h]
  · rw [preview200, if_pos h]
    have htake : ((extract_clean_text (r.bodyHtml.getD "")).toList.take 200).length = 200 := by
      rw [List.length_take]
      have : 200 ≤ (extract_clean_text (r.bodyHtml.getD "")).toList.length := by
        have hlen : (extract_clean_text (r.bodyHtml.getD "")).length
            = (extract_clean_text (r.bodyHtml.getD "")).toList.length := rfl
        omega
      omega
    have : (String.mk ((extract_clean_text (r.bodyHtml.getD "")).toList.take 200)).length = 200 := htake
    rw [String.length_append, this]
    decide
  · rw [preview200, if_neg (by omega)]

/-- Witness for C5: a 250-character clean body yields the first 200
characters plus `"..."` (203 characters in all); a 150-character clean body
is fully shown with no ellipsis. -/
theorem claim_C5_witness :
    preview200 (extract_clean_text (hit250.bodyHtml.getD ""))
      = String.mk (List.replicate 200 'b') ++ "..."
    ∧ (preview200 (extract_clean_text (hit250.bodyHtml.getD ""))).length = 203
    ∧ preview200 (extract_clean_text (hit150.bodyHtml.getD ""))
      = String.mk (List.replicate 150 'c') := by
  have h250 := (claim_C5 1 hit250).2.1 (by decide)
  have h150 := (claim_C5 1 hit150).2.2 (by decide)
  refine ⟨?_, h250.2, ?_⟩
  · rw [h250.1]; decide
  · rw [h150]; decide

/-! ## Chat notifier: C7 -/

/-- Claim C7: with unconfigured credentials `send_tawk_message` returns
`false` and issues no POST; with configured credentials it issues exactly
one POST to the chat's message endpoint and returns `true` iff the HTTP
status is 200 or 201 (`false` on any other status and on a transport
exception), with no retry. -/
theorem claim_C7 (cfg : TawkConfig) (net : PostCall → PostResult) (chat_id message : String) :
    (tawkConfigured cfg = false →
      send_tawk_message cfg net chat_id message = (false, []))
    ∧ (tawkConfigured cfg = true →
      (send_tawk_message cfg net chat_id message).2 = [⟨chat_id, message⟩]
      ∧ ((send_tawk_message cfg net chat_id message).1 = true ↔
          net ⟨chat_id, message⟩ = .status 200 ∨ net ⟨chat_id, message⟩ = .status 201)) := by
  constructor
  · intro h
    rw [send_tawk_message, h]
    rfl
  · intro h
    rw [send_tawk_message, h]
    simp only [Bool.not_true, Bool.false_eq_true, if_false]
    cases hn : net ⟨chat_id, message⟩ with
    | exn => simp [hn]
    | status code =>
      refine ⟨rfl, ?_⟩
      simp only [decide_eq_true_eq]
      constructor
      · rintro (h200 | h201)
        · exact Or.inl (by rw [h200])
        · exact Or.inr (by rw [h201])
      · rintro (h200 | h201)
        · exact Or.inl (by injection h200)
        · exact Or.inr (by injection h201)

/-- Witness for C7: a concrete unconfigured run makes no call and returns
`false`; a concrete configured run against a 200-answering endpoint makes
exactly one call and returns `true`. -/
theorem claim_C7_witness :
    send_tawk_message cfgMissingKey net200 "chat" "msg" = (false, [])
    ∧ (send_tawk_message cfgFull net200 "chat" "msg").2 = [⟨"chat", "msg"⟩]
    ∧ (send_tawk_message cfgFull net200 "chat" "msg").1 = true :=
  ⟨(claim_C7 cfgMissingKey net200 "chat" "msg").1 (by decide),
   ((claim_C7 cfgFull net200 "chat" "msg").2 (by decide)).1,
   (((claim_C7 cfgFull net200 "chat" "msg").2 (by decide)).2).mpr (Or.inl rfl)⟩

/-! ## Webhook dispatcher: C8 -/

/-- Counterexample to claim C8: a `chat:start` payload whose message text
is the nonempty string `" "` does not run the search pipeline on that text;
the dispatcher sends the fixed welcome message instead (the code tests the
text only after stripping it). -/
theorem claim_C8_counterexample :
    dataWsText.event = some "chat:start"
    ∧ rawMessageText dataWsText = " "
    ∧ " " ≠ ""
    ∧ tawk_webhook envTriv dataWsText = [.notified (some "abc") welcomeMessage] := by
  decide

/-- Claim C8 as amended: on a `chat:start` event, when the payload's
message text is empty, missing, or whitespace-only (i.e. empty after
stripping), the dispatcher invokes the chat notifier exactly once with the
fixed welcome message for that chat and never touches the search or
generation pipeline; when the stripped text is nonempty it runs the full
search → generate → notify pipeline on the stripped text. -/
theorem claim_C8_amended (env : Env) (d : WebhookData) (hev : d.event = some "chat:start") :
    (pyStrip (rawMessageText d) = "" →
      tawk_webhook env d = [.notified d.chatId welcomeMessage])
    ∧ (pyStrip (rawMessageText d) ≠ "" →
      tawk_webhook env d =
        [.searched (pyStrip (rawMessageText d)),
         .notified d.chatId
          (generate_response env.ai (pyStrip (rawMessageText d))
            (search_confluence (pyStrip (rawMessageText d)) env.searchEnv))]) := by
  constructor
  · intro h
    rw [tawk_webhook, if_pos hev]
    simp [h]
  · intro h
    rw [tawk_webhook, if_pos hev]
    simp [h]

/-- Witness for C8: an empty-text `chat:start` payload for chat `"abc"`
produces exactly one notifier invocation carrying the welcome message, and
a `"hi"` payload produces the full pipeline trace. -/
theorem claim_C8_witness :
    tawk_webhook envTriv dataEmptyText = [.notified (some "abc") welcomeMessage]
    ∧ tawk_webhook envTriv dataHiText =
        [.searched "hi",
         .notified (some "abc") (generate_response none "hi" (search_confluence "hi" envTriv.searchEnv))] := by
  constructor
  · exact (claim_C8_amended envTriv dataEmptyText rfl).1 (by decide)
  · have h := (claim_C8_amended envTriv dataHiText rfl).2 (by decide)
    rw [h]
    decide

/-! ## Markup extractor: C6, C10

The normal form produced by `pyStripList ∘ collapseWs`: every whitespace
character is a plain space, no two adjacent characters are both whitespace,
and the ends are not whitespace. -/

/-- No two adjacent whitespace characters. -/
def noTwoWs (a b : Char) : Prop := ¬(isPySpace a = true ∧ isPySpace b = true)

theorem noTwoWs_symm (a b : Char) (h : noTwoWs a b) : noTwoWs b a :=
  fun hc => h ⟨hc.2, hc.1⟩

theorem removeTagsGo_no_lt (cs : List Char) (h : '<' ∉ cs) : removeTagsGo [] cs = cs := by
  induction cs with
  | nil => rfl
  | cons c rest ih =>
    have hc : ¬c = '<' := fun hc => h (hc ▸ List.mem_cons_self c rest)
    have hrest : '<' ∉ rest := fun hr => h (List.mem_cons_of_mem c hr)
    simp only [removeTagsGo, List.isEmpty_nil, if_true, hc, if_false]
    rw [ih hrest]

theorem replaceAllFuel_not_mem (a : Char) (pat rep : List Char) (hpat : pat.head? = some a) :
    ∀ (f : Nat) (s : List Char), a ∉ s → replaceAllFuel pat rep f s = s := by
  obtain ⟨ps, rfl⟩ : ∃ ps, pat = a :: ps := by
    cases pat with
    | nil => cases hpat
    | cons p ps => exact ⟨ps, by injection hpat with h; rw [h]⟩
  intro f s
  induction s generalizing f with
  | nil => intro _; cases f <;> rfl
  | cons c rest ih =>
    intro hmem
    have hc : (a == c) = false := by
      simp only [beq_eq_false_iff_ne, ne_eq]
      exact fun hac => hmem (hac ▸ List.mem_cons_self c rest)
    have hrest : a ∉ rest := fun hr => hmem (List.mem_cons_of_mem c hr)
    cases f with
    | zero => rfl
    | succ fuel =>
      simp only [replaceAllFuel, List.isPrefixOf, hc, Bool.false_and, Bool.and_false,
        Bool.false_eq_true, if_false]
      rw [ih fuel hrest]

theorem replaceAll_not_mem (a : Char) (pat rep s : List Char) (hpat : pat.head? = some a)
    (h : a ∉ s) : replaceAll pat rep s = s :=
  replaceAllFuel_not_mem a pat rep hpat s.length s h

theorem decodeEntities_no_amp (cs : List Char) (h : '&' ∉ cs) : decodeEntities cs = cs := by
  rw [decodeEntities]
  rw [replaceAll_not_mem '&' "&nbsp;".toList " ".toList cs (by decide) h]
  rw [replaceAll_not_mem '&' "&amp;".toList "&".toList cs (by decide) h]
  rw [replaceAll_not_mem '&' "&lt;".toList "<".toList cs (by decide) h]
  rw [replaceAll_not_mem '&' "&gt;".toList ">".toList cs (by decide) h]
  rw [replaceAll_not_mem '&' "&quot;".toList "\"".toList cs (by decide) h]
  rw [replaceAll_not_mem '&' "&#39;".toList "\x27".toList cs (by decide) h]

theorem mem_collapseWs (l : List Char) : ∀ c ∈ collapseWs l, c ∈ l ∨ c = ' ' := by
  induction l with
  | nil => intro c hc; cases hc
  | cons x rest ih =>
    intro c hc
    cases rest with
    | nil =>
      simp only [collapseWs] at hc
      by_cases hx : isPySpace x = true
      · rw [if_pos hx] at hc
        rcases List.mem_singleton.mp hc with h
        exact Or.inr h
      · rw [if_neg hx] at hc
        rcases List.mem_singleton.mp hc with h
        exact Or.inl (h ▸ List.mem_cons_self x [])
    | cons d rest' =>
      simp only [collapseWs] at hc
      by_cases hx : isPySpace x = true
      · rw [if_pos hx] at hc
        by_cases hd : isPySpace d = true
        · rw [if_pos hd] at hc
          rcases ih c hc with h | h
          · exact Or.inl (List.mem_cons_of_mem x h)
          · exact Or.inr h
        · rw [if_neg hd] at hc
          rcases List.mem_cons.mp hc with h | h
          · exact Or.inr h
          · rcases ih c h with h' | h'
            · exact Or.inl (List.mem_cons_of_mem x h')
            · exact Or.inr h'
      · rw [if_neg hx] at hc
        rcases List.mem_cons.mp hc with h | h
        · exact Or.inl (h ▸ List.mem_cons_self x (d :: rest'))
        · rcases ih c h with h' | h'
          · exact Or.inl (List.mem_cons_of_mem x h')
          · exact Or.inr h'

theorem collapseWs_ws_eq_space (l : List Char) :
    ∀ c ∈ collapseWs l, isPySpace c = true → c = ' ' := by
  induction l with
  | nil => intro c hc; cases hc
  | cons x rest ih =>
    intro c hc hw
    cases rest with
    | nil =>
      simp only [collapseWs] at hc
      by_cases hx : isPySpace x = true
      · rw [if_pos hx] at hc
        exact List.mem_singleton.mp hc
      · rw [if_neg hx] at hc
        rw [List.mem_singleton.mp hc] at hw
        exact absurd hw hx
    | cons d rest' =>
      simp only [collapseWs] at hc
      by_cases hx : isPySpace x = true
      · rw [if_pos hx] at hc
        by_cases hd : isPySpace d = true
        · rw [if_pos hd] at hc
          exact ih c hc hw
        · rw [if_neg hd] at hc
          rcases List.mem_cons.mp hc with h | h
          · exact h
          · exact ih c h hw
      · rw [if_neg hx] at hc
        rcases List.mem_cons.mp hc with h | h
        · rw [h] at hw; exact absurd hw hx
        · exact ih c h hw

theorem collapseWs_head (d : Char) (rest : List Char) :
    (collapseWs (d :: rest)).head? = some (if isPySpace d then ' ' else d) := by
  induction rest generalizing d with
  | nil =>
    simp only [collapseWs]
    by_cases hd : isPySpace d = true
    · rw [if_pos hd, if_pos hd]; rfl
    · rw [if_neg hd, if_neg hd]; rfl
  | cons e rest' ih =>
    simp only [collapseWs]
    by_cases hd : isPySpace d = true
    · rw [if_pos hd, if_pos hd]
      by_cases he : isPySpace e = true
      · rw [if_pos he, ih e, if_pos he]
      · rw [if_neg he]; rfl
    · rw [if_neg hd, if_neg hd]; rfl

theorem chain'_collapseWs (l : List Char) : List.Chain' noTwoWs (collapseWs l) := by
  induction l with
  | nil => exact List.chain'_nil
  | cons x rest ih =>
    cases rest with
    | nil =>
      simp only [collapseWs]
      by_cases hx : isPySpace x = true
      · rw [if_pos hx]; exact List.chain'_singleton _
      · rw [if_neg hx]; exact List.chain'_singleton _
    | cons d rest' =>
      simp only [collapseWs]
      by_cases hx : isPySpace x = true
      · rw [if_pos hx]
        by_cases hd : isPySpace d = true
        · rw [if_pos hd]; exact ih
        · rw [if_neg hd]
          refine List.chain'_cons'.mpr ⟨?_, ih⟩
          intro y hy
          rw [collapseWs_head d rest', if_neg hd] at hy
          injection hy with hy
          exact fun hc => hd (hy ▸ hc.2)
      · rw [if_neg hx]
        refine List.chain'_cons'.mpr ⟨?_, ih⟩
        intro y hy
        exact fun hc => hx hc.1

theorem collapseWs_eq_self (l : List Char)
    (hws : ∀ c ∈ l, isPySpace c = true → c = ' ')
    (hch : List.Chain' noTwoWs l) : collapseWs l = l := by
  induction l with
  | nil => rfl
  | cons x rest ih =>
    cases rest with
    | nil =>
      simp only [collapseWs]
      by_cases hx : isPySpace x = true
      · rw [if_pos hx, hws x (List.mem_cons_self x []) hx]
      · rw [if_neg hx]
    | cons d rest' =>
      have hxd : noTwoWs x d := (List.chain'_cons.mp hch).1
      have hch' : List.Chain' noTwoWs (d :: rest') := (List.chain'_cons.mp hch).2
      have hws' : ∀ c ∈ d :: rest', isPySpace c = true → c = ' ' :=
        fun c hc => hws c (List.mem_cons_of_mem x hc)
      simp only [collapseWs]
      by_cases hx : isPySpace x = true
      · rw [if_pos hx]
        have hd : ¬isPySpace d = true := fun hd => hxd ⟨hx, hd⟩
        rw [if_neg hd, ih hws' hch', hws x (List.mem_cons_self x (d :: rest')) hx]
      · rw [if_neg hx, ih hws' hch']

theorem mem_pyStripList (l : List Char) : ∀ c ∈ pyStripList l, c ∈ l := by
  intro c hc
  rw [pyStripList, List.mem_reverse] at hc
  have h1 := (List.dropWhile_suffix isPySpace).subset hc
  rw [List.mem_reverse] at h1
  exact (List.dropWhile_suffix isPySpace).subset h1

theorem chain'_pyStripList (l : List Char) (h : List.Chain' noTwoWs l) :
    List.Chain' noTwoWs (pyStripList l) := by
  have h1 : List.Chain' noTwoWs (l.dropWhile isPySpace) :=
    h.suffix (List.dropWhile_suffix isPySpace)
  have h2 : List.Chain' noTwoWs (l.dropWhile isPySpace).reverse :=
    List.chain'_reverse.mpr (h1.imp noTwoWs_symm)
  have h3 : List.Chain' noTwoWs ((l.dropWhile isPySpace).reverse.dropWhile isPySpace) :=
    h2.suffix (List.dropWhile_suffix isPySpace)
  exact List.chain'_reverse.mpr (h3.imp noTwoWs_symm)

theorem suffix_getLast? {l' l : List Char} (h : l' <:+ l) (hne : l' ≠ []) :
    l'.getLast? = l.getLast? := by
  obtain ⟨t, rfl⟩ := h
  rw [List.getLast?_append]
  cases hgl : l'.getLast? with
  | none => exact absurd (List.getLast?_eq_none_iff.mp hgl) hne
  | some y => rfl

theorem pyStripList_last (l : List Char) :
    ∀ c, (pyStripList l).getLast? = some c → isPySpace c = false := by
  intro c hc
  rw [pyStripList, List.getLast?_reverse] at hc
  have h := List.head?_dropWhile_not isPySpace (l.dropWhile isPySpace).reverse
  rw [hc] at h
  exact h

theorem pyStripList_head (l : List Char) :
    ∀ c, (pyStripList l).head? = some c → isPySpace c = false := by
  intro c hc
  rw [pyStripList, List.head?_reverse] at hc
  have hne : (l.dropWhile isPySpace).reverse.dropWhile isPySpace ≠ [] := by
    intro hnil
    rw [hnil] at hc
    cases hc
  rw [suffix_getLast? (List.dropWhile_suffix isPySpace) hne, List.getLast?_reverse] at hc
  have h := List.head?_dropWhile_not isPySpace l
  rw [hc] at h
  exact h

theorem dropWhile_eq_self_of_head (l : List Char)
    (h : ∀ c, l.head? = some c → isPySpace c = false) : l.dropWhile isPySpace = l := by
  cases l with
  | nil => rfl
  | cons c rest => exact List.dropWhile_cons_of_neg (by simp [h c rfl])

theorem pyStripList_eq_self (l : List Char)
    (hhead : ∀ c, l.head? = some c → isPySpace c = false)
    (hlast : ∀ c, l.getLast? = some c → isPySpace c = false) : pyStripList l = l := by
  rw [pyStripList, dropWhile_eq_self_of_head l hhead,
    dropWhile_eq_self_of_head l.reverse (fun c hc => hlast c (List.head?_reverse l ▸ hc)),
    List.reverse_reverse]

/-- Claim C10: the extractor's output is whitespace-normalized — it
contains no tab or newline, never two adjacent spaces, and neither end is
whitespace.  (The model is a total function, so no input can raise.) -/
theorem claim_C10 (s : String) :
    (∀ c ∈ (extract_clean_text s).toList, c ≠ '\t' ∧ c ≠ '\n')
    ∧ List.Chain' (fun a b => ¬(a = ' ' ∧ b = ' ')) (extract_clean_text s).toList
    ∧ (∀ c, (extract_clean_text s).toList.head? = some c → isPySpace c = false)
    ∧ (∀ c, (extract_clean_text s).toList.getLast? = some c → isPySpace c = false) := by
  by_cases hs : s = ""
  · subst hs
    refine ⟨fun c hc => ?_, ?_, fun c hc => ?_, fun c hc => ?_⟩
    · exact absurd hc (List.not_mem_nil c)
    · exact List.chain'_nil
    · exact Option.noConfusion hc
    · exact Option.noConfusion hc
  · have ht : (extract_clean_text s).toList
        = pyStripList (collapseWs (decodeEntities (removeTags s.toList))) := by
      simp only [extract_clean_text, if_neg hs]
      rfl
    rw [ht]
    have hP1 : ∀ c ∈ pyStripList (collapseWs (decodeEntities (removeTags s.toList))),
        isPySpace c = true → c = ' ' := fun c hc =>
      collapseWs_ws_eq_space _ c (mem_pyStripList _ c hc)
    refine ⟨fun c hc => ⟨?_, ?_⟩, ?_, pyStripList_head _, pyStripList_last _⟩
    · intro heq
      rw [heq] at hc
      exact absurd (hP1 '\t' hc (by decide)) (by decide)
    · intro heq
      rw [heq] at hc
      exact absurd (hP1 '\n' hc (by decide)) (by decide)
    · refine (chain'_pyStripList _ (chain'_collapseWs _)).imp (fun a b hab => ?_)
      intro hsp
      exact hab ⟨by rw [hsp.1]; decide, by rw [hsp.2]; decide⟩

/-- Witness for C10 on the input `" x\t\ny "` (output `"x y"`): its
characters are neither tab nor newline, and its ends are not whitespace. -/
theorem claim_C10_witness :
    ('x' ≠ '\t' ∧ 'x' ≠ '\n') ∧ isPySpace 'x' = false ∧ isPySpace 'y' = false := by
  refine ⟨(claim_C10 " x\t\ny ").1 'x' (by decide), ?_, ?_⟩
  · exact (claim_C10 " x\t\ny ").2.2.1 'x' (by decide)
  · exact (claim_C10 " x\t\ny ").2.2.2 'y' (by decide)

/-- Counterexample to claim C6: the input `"<a<b>c>"` has no entity-looking
substring (it contains no ampersand at all), yet extraction is not
idempotent on it: one pass yields `"<ac>"`, whose re-extraction yields
`""`. -/
theorem claim_C6_counterexample :
    ('&' ∉ "<a<b>c>".toList)
    ∧ extract_clean_text "<a<b>c>" = "<ac>"
    ∧ extract_clean_text (extract_clean_text "<a<b>c>") = ""
    ∧ extract_clean_text (extract_clean_text "<a<b>c>") ≠ extract_clean_text "<a<b>c>" := by
  decide

/-- Claim C6 as amended: the extractor is idempotent on every input that
contains no ampersand character (hence no entity-looking substring) and no
open-angle-bracket character (tag removal can otherwise splice leftover
brackets into a fresh tag-like span, as the counterexample shows). -/
theorem claim_C6_amended (s : String) (h1 : '&' ∉ s.toList) (h2 : '<' ∉ s.toList) :
    extract_clean_text (extract_clean_text s) = extract_clean_text s := by
  by_cases hs : s = ""
  · subst hs; rfl
  · have hx : decodeEntities (removeTags s.toList) = s.toList := by
      rw [removeTags, removeTagsGo_no_lt s.toList h2, decodeEntities_no_amp s.toList h1]
    have ht : extract_clean_text s = String.mk (pyStripList (collapseWs s.toList)) := by
      simp only [extract_clean_text, if_neg hs]
      rw [hx]
    have hsub : ∀ c ∈ pyStripList (collapseWs s.toList), c ∈ s.toList ∨ c = ' ' := fun c hc =>
      mem_collapseWs s.toList c (mem_pyStripList _ c hc)
    have h1t : '&' ∉ pyStripList (collapseWs s.toList) := by
      intro hm
      rcases hsub '&' hm with h | h
      · exact h1 h
      · exact absurd h (by decide)
    have h2t : '<' ∉ pyStripList (collapseWs s.toList) := by
      intro hm
      rcases hsub '<' hm with h | h
      · exact h2 h
      · exact absurd h (by decide)
    rw [ht]
    by_cases htnil : pyStripList (collapseWs s.toList) = []
    · rw [htnil]; rfl
    · have hmkne : String.mk (pyStripList (collapseWs s.toList)) ≠ "" := by
        intro hmk
        exact htnil (by simpa using congrArg String.data hmk)
      simp only [extract_clean_text, if_neg hmkne]
      have htoList : (String.mk (pyStripList (collapseWs s.toList))).toList
          = pyStripList (collapseWs s.toList) := rfl
      rw [htoList, removeTags, removeTagsGo_no_lt _ h2t, decodeEntities_no_amp _ h1t]
      have hws : ∀ c ∈ pyStripList (collapseWs s.toList), isPySpace c = true → c = ' ' :=
        fun c hc => collapseWs_ws_eq_space _ c (mem_pyStripList _ c hc)
      have hch : List.Chain' noTwoWs (pyStripList (collapseWs s.toList)) :=
        chain'_pyStripList _ (chain'_collapseWs s.toList)
      rw [collapseWs_eq_self _ hws hch,
        pyStripList_eq_self _ (pyStripList_head _) (pyStripList_last _)]

/-- Witness for the amended C6: `"a  b"` (no ampersand, no open bracket)
extracts to `"a b"`, on which a second extraction is the identity. -/
theorem claim_C6_witness :
    ('&' ∉ "a  b".toList) ∧ ('<' ∉ "a  b".toList)
    ∧ extract_clean_text (extract_clean_text "a  b") = extract_clean_text "a  b" :=
  ⟨by decide, by decide, claim_C6_amended "a  b" (by decide) (by decide)⟩
